import Mathlib

/-!
Shallow embedding of `validasi.py`, an API-key validator: it reads keys from a
text file, issues one HTTP request per key, classifies each response, prints a
sorted report, and writes a debug log plus an active-keys file.  Strings are
modelled as `List Char`; the network is modelled as a response oracle
`Nat → List Char → Option Nat × List Char` mapping the 1-based key index and the
key to the pair `(status_code?, body)` returned by `check_key_requests`
(`none` status means the request raised an exception).
-/

namespace Validasi

/-- Python whitespace characters relevant to `str.strip()` (ASCII subset). -/
def isPySpace (c : Char) : Bool :=
  c == ' ' || c == '\t' || c == '\n' || c == '\r' || c == '\x0b' || c == '\x0c'

/-- Model of Python `str.strip()`: drop whitespace from both ends. -/
def pyStrip (s : List Char) : List Char :=
  ((s.dropWhile isPySpace).reverse.dropWhile isPySpace).reverse

/-- Worker for `splitlines`: accumulates the current line (reversed) and splits
at a line boundary, treating a carriage-return/line-feed pair as one boundary,
as Python `str.splitlines()` does. -/
def splitlinesGo : List Char → List Char → List (List Char)
  | [], acc => [acc.reverse]
  | '\r' :: '\n' :: rest, acc =>
      acc.reverse :: (if rest.isEmpty then [] else splitlinesGo rest [])
  | '\r' :: rest, acc =>
      acc.reverse :: (if rest.isEmpty then [] else splitlinesGo rest [])
  | '\n' :: rest, acc =>
      acc.reverse :: (if rest.isEmpty then [] else splitlinesGo rest [])
  | c :: rest, acc => splitlinesGo rest (c :: acc)

/-- Model of Python `str.splitlines()` restricted to the line boundaries
`\n`, `\r`, `\r\n`; the empty string yields no lines and a trailing boundary
does not produce a final empty line. -/
def splitlines (cs : List Char) : List (List Char) :=
  if cs.isEmpty then [] else splitlinesGo cs []

/-- Loop body of `read_keys` (validasi.py lines 37-42): strip each line, skip
lines that are empty after stripping or whose stripped form starts with a
hash mark, keep the stripped line otherwise. -/
def filterKeys : List (List Char) → List (List Char)
  | [] => []
  | line :: rest =>
      let s := pyStrip line
      if s.isEmpty || s.head? == some '#' then filterKeys rest
      else s :: filterKeys rest

/-- Embedding of `read_keys` (validasi.py lines 33-43) applied to the text of
an existing file: split into lines and run the filtering loop. -/
def read_keys (content : List Char) : List (List Char) :=
  filterKeys (splitlines content)

/-- Embedding of `mask_key` (validasi.py lines 46-49).  Python slices `k[:n]`
and `k[-n:]` are `take n` and `drop (length - n)` on the character list. -/
def mask_key (k : List Char) : List Char :=
  if k.length ≤ 10 then k.take 2 ++ "...".data ++ k.drop (k.length - 2)
  else k.take 4 ++ "...".data ++ k.drop (k.length - 4)

/-- The last `n` characters of `k` (the reference reading of Python `k[-n:]`),
written independently of `List.drop` for comparison with `mask_key`. -/
def lastChars (n : Nat) (k : List Char) : List Char :=
  (k.reverse.take n).reverse

/-- Classification of one response (validasi.py lines 136-147): an exception
(`none` status) records the error text, 200 is active, 401/403 is
unauthorized, anything else reports the code as `HTTP <status>`.  Returns
`(ok, note)`. -/
def classify (status : Option Nat) (body : List Char) : Bool × List Char :=
  match status with
  | none => (false, "Error: ".data ++ body)
  | some s =>
      if s = 200 then (true, "Active".data)
      else if s = 401 ∨ s = 403 then (false, "Invalid / Unauthorized".data)
      else (false, "HTTP ".data ++ (Nat.repr s).data)

/-- One per-key result record (validasi.py line 149). -/
structure ResultRec where
  index : Nat
  key : List Char
  masked : List Char
  status : Option Nat
  ok : Bool
  note : List Char
deriving DecidableEq

/-- Build the result record for key number `i` from its response
(validasi.py lines 129-149). -/
def processKey (i : Nat) (key : List Char) (response : Option Nat × List Char) :
    ResultRec :=
  { index := i
    key := key
    masked := mask_key key
    status := response.1
    ok := (classify response.1 response.2).1
    note := (classify response.1 response.2).2 }

/-- The validation loop (validasi.py lines 126-149) over the remaining keys,
starting at index `i`; `resp` is the response oracle. -/
def runLoop (resp : Nat → List Char → Option Nat × List Char) :
    Nat → List (List Char) → List ResultRec
  | _, [] => []
  | i, k :: ks => processKey i k (resp i k) :: runLoop resp (i + 1) ks

/-- All result records for a key list, with 1-based enumeration as in
`enumerate(keys, 1)`. -/
def runResults (keys : List (List Char))
    (resp : Nat → List Char → Option Nat × List Char) : List ResultRec :=
  runLoop resp 1 keys

/-- One per-key debug record (validasi.py lines 152-158). -/
structure DebugRec where
  index : Nat
  masked : List Char
  status : Option Nat
  auth_mode : List Char
  body_preview : List Char
deriving DecidableEq

/-- Build the debug record for key number `i` (validasi.py lines 152-159):
the body is trimmed to 1000 characters plus an ellipsis when longer. -/
def debugRecord (i : Nat) (key auth_mode : List Char)
    (response : Option Nat × List Char) : DebugRec :=
  { index := i
    masked := mask_key key
    status := response.1
    auth_mode := auth_mode
    body_preview :=
      if response.2.length > 1000 then response.2.take 1000 ++ "...".data
      else response.2 }

/-- The debug side of the validation loop, collecting one debug record per
key. -/
def debugLoop (resp : Nat → List Char → Option Nat × List Char)
    (auth_mode : List Char) : Nat → List (List Char) → List DebugRec
  | _, [] => []
  | i, k :: ks => debugRecord i k auth_mode (resp i k) :: debugLoop resp auth_mode (i + 1) ks

/-- All debug records for a key list, 1-based. -/
def runDebug (keys : List (List Char)) (auth_mode : List Char)
    (resp : Nat → List Char → Option Nat × List Char) : List DebugRec :=
  debugLoop resp auth_mode 1 keys

/-- Rank used by the report sort key (validasi.py line 164): active records
rank 0, the rest rank 1. -/
def okRank (r : ResultRec) : Nat :=
  if r.ok then 0 else 1

/-- Boolean comparison corresponding to Python sorting by the tuple
`(0 if r.ok else 1, r.index)`. -/
def resLe (a b : ResultRec) : Bool :=
  Nat.blt (okRank a) (okRank b) || (okRank a == okRank b && Nat.ble a.index b.index)

/-- Embedding of `results_sorted` (validasi.py line 164): a stable sort by the
tuple key. -/
def sortResults (rs : List ResultRec) : List ResultRec :=
  rs.mergeSort resLe

/-- Contents of `aktif.txt` (validasi.py lines 192-195): iterate the sorted
results and append `key,\n` for each active record. -/
def aktifContents (rs : List ResultRec) : List Char :=
  (sortResults rs).foldl
    (fun acc r => if r.ok then acc ++ r.key ++ ",\n".data else acc) []

/-- Lowercase hexadecimal digit, as used by Python `json` escapes. -/
def hexDigit (n : Nat) : Char :=
  if n < 10 then Char.ofNat (48 + n) else Char.ofNat (87 + n)

/-- Four-digit lowercase hexadecimal rendering of a code point below 2^16. -/
def hex4 (n : Nat) : List Char :=
  [hexDigit (n / 4096 % 16), hexDigit (n / 256 % 16), hexDigit (n / 16 % 16),
    hexDigit (n % 16)]

/-- Escaping of one character in a JSON string literal as produced by
Python `json.dump` with `ensure_ascii=False`: quote, backslash and the named
control escapes, `\u00XX` for other control characters, everything else
verbatim. -/
def jsonEscapeChar (c : Char) : List Char :=
  if c = '"' then ['\\', '"']
  else if c = '\\' then ['\\', '\\']
  else if c = '\n' then ['\\', 'n']
  else if c = '\r' then ['\\', 'r']
  else if c = '\t' then ['\\', 't']
  else if c = '\x08' then ['\\', 'b']
  else if c = '\x0c' then ['\\', 'f']
  else if c.toNat < 32 then '\\' :: 'u' :: hex4 c.toNat
  else [c]

/-- JSON string literal for a character list. -/
def jsonStr (s : List Char) : List Char :=
  '"' :: (s.map jsonEscapeChar).flatten ++ ['"']

/-- JSON rendering of the `status` field: `null` for a raised request,
the decimal status code otherwise. -/
def jsonOfStatus : Option Nat → List Char
  | none => "null".data
  | some n => (Nat.repr n).data

/-- One debug record as serialized inside the array by
`json.dump(debug_lines, fh, indent=2, ensure_ascii=False)`
(validasi.py line 182): a two-space indented object whose members keep the
insertion order of the Python dict at lines 152-158. -/
def debugItemJson (d : DebugRec) : List Char :=
  "  \x7b\n    \"index\": ".data ++ (Nat.repr d.index).data
    ++ ",\n    \"masked\": ".data ++ jsonStr d.masked
    ++ ",\n    \"status\": ".data ++ jsonOfStatus d.status
    ++ ",\n    \"auth_mode\": ".data ++ jsonStr d.auth_mode
    ++ ",\n    \"body_preview\": ".data ++ jsonStr d.body_preview
    ++ "\n  \x7d".data

/-- The full `json.dump(debug_lines, fh, indent=2, ensure_ascii=False)` output
for the list of debug records: `[]` when empty, otherwise the bracketed,
comma-separated, indented items. -/
def jsonDumpDebug (ds : List DebugRec) : List Char :=
  match ds with
  | [] => "[]".data
  | d :: rest =>
      "[\n".data ++ debugItemJson d
        ++ (rest.map (fun d2 => ",\n".data ++ debugItemJson d2)).flatten
        ++ "\n]".data

/-- The header the program writes before the JSON array
(validasi.py lines 178-181): a title line, the endpoint line, the timestamp
line and a blank line. -/
def debugHeader (endpoint timestamp : List Char) : List Char :=
  "DEBUG VALIDATION LOG\n".data
    ++ "Endpoint: ".data ++ endpoint ++ "\n".data
    ++ "Requested at: ".data ++ timestamp ++ "\n".data
    ++ "\n".data

/-- The whole contents of the debug log file, write by write
(validasi.py lines 177-183). -/
def debugLogContents (endpoint timestamp : List Char) (ds : List DebugRec) :
    List Char :=
  "DEBUG VALIDATION LOG\n".data
    ++ "Endpoint: ".data ++ endpoint ++ "\n".data
    ++ "Requested at: ".data ++ timestamp ++ "\n".data
    ++ "\n".data
    ++ jsonDumpDebug ds
    ++ "\n".data

/-- JSON insignificant whitespace (RFC 8259). -/
def jsonWs (c : Char) : Bool :=
  c == ' ' || c == '\t' || c == '\n' || c == '\r'

/-- First character after leading JSON whitespace. -/
def firstNonWs (s : List Char) : Option Char :=
  (s.dropWhile jsonWs).head?

/-- Necessary condition for a text to parse as a JSON array: its first
non-whitespace character is an opening square bracket (RFC 8259: an array is
`begin-array value* end-array`, and only `ws` may precede `begin-array`). -/
def startsAsJsonArray (s : List Char) : Bool :=
  firstNonWs s == some '['

/-- Observable outcome of one program run: the process exit code, how many
HTTP requests were issued, and the contents of the two output files when they
are written. -/
structure RunOutcome where
  exitCode : Nat
  requestCount : Nat
  debugLog : Option (List Char)
  aktifFile : Option (List Char)
deriving DecidableEq

/-- Embedding of `main` (validasi.py lines 114-198) after argument parsing:
`keyFile` is the contents of the input file (`none` when it does not exist,
in which case `read_keys` raises and `main` exits with code 2); an empty
parsed key list exits with code 0 before any request; otherwise the loop
issues one request per key and the two output files are written. -/
def mainRun (keyFile : Option (List Char)) (endpoint timestamp auth_mode : List Char)
    (resp : Nat → List Char → Option Nat × List Char) : RunOutcome :=
  match keyFile with
  | none => { exitCode := 2, requestCount := 0, debugLog := none, aktifFile := none }
  | some content =>
      let keys := read_keys content
      if keys.isEmpty then
        { exitCode := 0, requestCount := 0, debugLog := none, aktifFile := none }
      else
        { exitCode := 0
          requestCount := keys.length
          debugLog := some (debugLogContents endpoint timestamp (runDebug keys auth_mode resp))
          aktifFile := some (aktifContents (runResults keys resp)) }

/-- Reference reading of the claim that `read_keys` returns the lines of the
file themselves (not their stripped forms): keep exactly the lines that are
neither blank after stripping nor comments, unchanged. -/
def read_keys_claim (content : List Char) : List (List Char) :=
  (splitlines content).filter fun line =>
    !((pyStrip line).isEmpty || (pyStrip line).head? == some '#')

/-! Sample result records used to instantiate theorems with hypotheses. -/

/-- A concrete inactive record, as produced for a key answered with HTTP 500. -/
def sampleInactive : ResultRec :=
  processKey 1 ("key-one".data) (some 500, "err".data)

/-- A concrete active record, as produced for a key answered with HTTP 200. -/
def sampleActive : ResultRec :=
  processKey 2 ("key-two".data) (some 200, "body".data)

/-! Helper lemmas. -/

lemma lastChars_eq_drop (n : Nat) (k : List Char) :
    lastChars n k = k.drop (k.length - n) := by
  simp [lastChars, List.reverse_take]

lemma resLe_trans : ∀ a b c : ResultRec,
    resLe a b = true → resLe b c = true → resLe a c = true := by
  intro a b c hab hbc
  simp only [resLe, Bool.or_eq_true, Bool.and_eq_true, Nat.blt_eq, Nat.ble_eq,
    beq_iff_eq] at hab hbc ⊢
  omega

lemma resLe_total : ∀ a b : ResultRec, (resLe a b || resLe b a) = true := by
  intro a b
  simp only [resLe, Bool.or_eq_true, Bool.and_eq_true, Nat.blt_eq, Nat.ble_eq,
    beq_iff_eq]
  omega

lemma resLe_elim {a b : ResultRec} (h : resLe a b = true) :
    (a.ok = false → b.ok = false) ∧ (a.ok = b.ok → a.index ≤ b.index) := by
  simp only [resLe, okRank, Bool.or_eq_true, Bool.and_eq_true, Nat.blt_eq,
    Nat.ble_eq, beq_iff_eq] at h
  cases ha : a.ok <;> cases hb : b.ok <;> simp [ha, hb] at h ⊢ <;> omega

lemma sortResults_perm (rs : List ResultRec) : (sortResults rs).Perm rs :=
  List.mergeSort_perm rs resLe

lemma sortResults_pairwise (rs : List ResultRec) :
    (sortResults rs).Pairwise fun a b => resLe a b = true :=
  List.sorted_mergeSort resLe_trans resLe_total rs

lemma sortResults_sorted_strict (rs : List ResultRec)
    (hix : rs.Pairwise fun a b => a.index ≠ b.index) :
    (sortResults rs).Pairwise fun a b =>
      (a.ok = false → b.ok = false) ∧ (a.ok = b.ok → a.index < b.index) := by
  have hne : (sortResults rs).Pairwise fun a b => a.index ≠ b.index :=
    ((sortResults_perm rs).pairwise_iff fun h => Ne.symm h).mpr hix
  exact ((sortResults_pairwise rs).and hne).imp fun h =>
    ⟨(resLe_elim h.1).1, fun hok => Nat.lt_of_le_of_ne ((resLe_elim h.1).2 hok) h.2⟩

lemma aktif_foldl (l : List ResultRec) (acc : List Char) :
    l.foldl (fun acc r => if r.ok then acc ++ r.key ++ ",\n".data else acc) acc
      = acc ++ ((l.filter fun r => r.ok).map fun r => r.key ++ ",\n".data).flatten := by
  induction l generalizing acc with
  | nil => simp
  | cons r rest ih =>
      cases h : r.ok
      · simpa [List.foldl_cons, List.filter_cons, h] using ih acc
      · rw [List.foldl_cons]
        simp only [h, if_true]
        rw [ih]
        simp [List.filter_cons, h, List.append_assoc]

lemma runLoop_map (resp : Nat → List Char → Option Nat × List Char)
    (ks : List (List Char)) : ∀ i : Nat,
    ((runLoop resp i ks).map fun r => r.index) = List.range' i ks.length ∧
    ((runLoop resp i ks).map fun r => r.key) = ks := by
  induction ks with
  | nil => intro i; simp [runLoop]
  | cons k rest ih =>
      intro i
      simp [runLoop, processKey, List.range', ih i, (ih (i + 1)).1, (ih (i + 1)).2]

lemma filterKeys_eq (lines : List (List Char)) :
    filterKeys lines
      = (lines.filter fun line =>
          !((pyStrip line).isEmpty || (pyStrip line).head? == some '#')).map pyStrip := by
  induction lines with
  | nil => rfl
  | cons l rest ih =>
      by_cases h1 : pyStrip l = []
      · simp [filterKeys, List.filter_cons, h1, ih]
      · by_cases h2 : (pyStrip l).head? = some '#'
        · simp [filterKeys, List.filter_cons, h1, h2, ih]
        · simp [filterKeys, List.filter_cons, h1, h2, ih]

/-! Claim theorems. -/

/-- C1: the classification of each result record is a total function of the
request outcome: a raised request (`none` status) gives `ok = false` with a
note recording the error string; status 200 gives `ok = true` with note
`Active`; 401 or 403 gives `ok = false` with a note carrying `Unauthorized`;
any other status gives `ok = false` with note `HTTP <status>`. -/
theorem classify_spec (body : List Char) :
    classify none body = (false, "Error: ".data ++ body) ∧
    classify (some 200) body = (true, "Active".data) ∧
    (∀ s : Nat, s = 401 ∨ s = 403 →
      classify (some s) body = (false, "Invalid / Unauthorized".data) ∧
        "Unauthorized".data <:+ "Invalid / Unauthorized".data) ∧
    (∀ s : Nat, s ≠ 200 → s ≠ 401 → s ≠ 403 →
      classify (some s) body = (false, "HTTP ".data ++ (Nat.repr s).data)) := by
  refine ⟨rfl, rfl, ?_, ?_⟩
  · rintro s (rfl | rfl)
    · exact ⟨rfl, by decide⟩
    · exact ⟨rfl, by decide⟩
  · intro s h1 h2 h3
    simp [classify, h1, h2, h3]

/-- Witness for C1 at statuses 401 and 500 with body `b`. -/
theorem classify_spec_witness :
    ((401 : Nat) = 401 ∨ (401 : Nat) = 403) ∧
    ((500 : Nat) ≠ 200) ∧ ((500 : Nat) ≠ 401) ∧ ((500 : Nat) ≠ 403) ∧
    (classify (some 401) ("b".data) = (false, "Invalid / Unauthorized".data) ∧
      "Unauthorized".data <:+ "Invalid / Unauthorized".data) ∧
    classify (some 500) ("b".data) = (false, "HTTP ".data ++ (Nat.repr 500).data) := by
  refine ⟨Or.inl rfl, by decide, by decide, by decide, ?_, ?_⟩
  · exact (classify_spec ("b".data)).2.2.1 401 (Or.inl rfl)
  · exact (classify_spec ("b".data)).2.2.2 500 (by decide) (by decide) (by decide)

/-- C2: the report sort is a permutation of the result records in which every
`ok = true` record comes before every `ok = false` record, and within each of
the two groups the original indices strictly increase (indices are pairwise
distinct for the records the loop produces). -/
theorem report_sort_spec (rs : List ResultRec)
    (hix : rs.Pairwise fun a b => a.index ≠ b.index) :
    (sortResults rs).Perm rs ∧
    (sortResults rs).Pairwise fun a b =>
      (a.ok = false → b.ok = false) ∧ (a.ok = b.ok → a.index < b.index) :=
  ⟨sortResults_perm rs, sortResults_sorted_strict rs hix⟩

/-- Witness for C2 on a concrete two-record list. -/
theorem report_sort_spec_witness :
    ([sampleInactive, sampleActive].Pairwise fun a b => a.index ≠ b.index) ∧
    ((sortResults [sampleInactive, sampleActive]).Perm [sampleInactive, sampleActive] ∧
      (sortResults [sampleInactive, sampleActive]).Pairwise fun a b =>
        (a.ok = false → b.ok = false) ∧ (a.ok = b.ok → a.index < b.index)) :=
  ⟨by decide, report_sort_spec [sampleInactive, sampleActive] (by decide)⟩

/-- C3: `mask_key` keeps the first and last 2 characters (joined by an
ellipsis) of keys of length at most 10, and the first and last 4 characters
of longer keys, where the last `n` characters are read off the reversed
key. -/
theorem mask_key_first_last (k : List Char) :
    mask_key k =
      if k.length ≤ 10 then k.take 2 ++ "...".data ++ lastChars 2 k
      else k.take 4 ++ "...".data ++ lastChars 4 k := by
  simp [mask_key, lastChars_eq_drop]

/-- C6: the validation loop yields exactly one result record per key: the
record list has the length of the key list, the `index` fields are exactly
`1, 2, ..., n` in order, and the `key` fields reproduce the input keys in
order. -/
theorem loop_records_spec (keys : List (List Char))
    (resp : Nat → List Char → Option Nat × List Char) :
    (runResults keys resp).length = keys.length ∧
    ((runResults keys resp).map fun r => r.index) = List.range' 1 keys.length ∧
    ((runResults keys resp).map fun r => r.key) = keys := by
  have h := runLoop_map resp keys 1
  refine ⟨?_, h.1, h.2⟩
  have hlen := congrArg List.length h.2
  simpa using hlen

/-- C8: when the input key file does not exist, the run exits with the
non-zero code 2, performs no request and writes neither output file. -/
theorem missing_file_exit (endpoint timestamp auth_mode : List Char)
    (resp : Nat → List Char → Option Nat × List Char) :
    (mainRun none endpoint timestamp auth_mode resp).exitCode = 2 ∧
    (mainRun none endpoint timestamp auth_mode resp).exitCode ≠ 0 ∧
    (mainRun none endpoint timestamp auth_mode resp).requestCount = 0 ∧
    (mainRun none endpoint timestamp auth_mode resp).debugLog = none ∧
    (mainRun none endpoint timestamp auth_mode resp).aktifFile = none := by
  refine ⟨rfl, ?_, rfl, rfl, rfl⟩
  show (2 : Nat) ≠ 0
  decide

/-- C10: when the parsed key list is empty, the run exits with code 0,
performs no request and writes neither the debug log nor the active-keys
file. -/
theorem empty_keys_exit (content endpoint timestamp auth_mode : List Char)
    (resp : Nat → List Char → Option Nat × List Char)
    (h : read_keys content = []) :
    (mainRun (some content) endpoint timestamp auth_mode resp).exitCode = 0 ∧
    (mainRun (some content) endpoint timestamp auth_mode resp).requestCount = 0 ∧
    (mainRun (some content) endpoint timestamp auth_mode resp).debugLog = none ∧
    (mainRun (some content) endpoint timestamp auth_mode resp).aktifFile = none := by
  simp [mainRun, h]

/-- Witness for C10 on a file holding only a comment line and a blank line. -/
theorem empty_keys_exit_witness :
    read_keys ("# comment\n\n".data) = [] ∧
    ((mainRun (some ("# comment\n\n".data)) ("e".data) ("t".data) ("q".data)
        (fun _ _ => (none, []))).exitCode = 0 ∧
      (mainRun (some ("# comment\n\n".data)) ("e".data) ("t".data) ("q".data)
        (fun _ _ => (none, []))).requestCount = 0 ∧
      (mainRun (some ("# comment\n\n".data)) ("e".data) ("t".data) ("q".data)
        (fun _ _ => (none, []))).debugLog = none ∧
      (mainRun (some ("# comment\n\n".data)) ("e".data) ("t".data) ("q".data)
        (fun _ _ => (none, []))).aktifFile = none) :=
  ⟨by decide, empty_keys_exit ("# comment\n\n".data) ("e".data) ("t".data)
    ("q".data) (fun _ _ => (none, [])) (by decide)⟩

/-- C4 counterexample: the debug log contents written by the program do not
parse as a JSON array, because the file opens with the header line
`DEBUG VALIDATION LOG` — its first non-whitespace character is `D`, while a
JSON array must begin with `[` after optional whitespace (RFC 8259).  Shown
on a concrete one-record log. -/
theorem debug_log_not_json_array :
    startsAsJsonArray
      (debugLogContents ("https://e".data) ("now".data)
        [debugRecord 1 ("abcdefghijkl".data) ("query_key".data)
          (some 200, "ok".data)]) = false ∧
    firstNonWs
      (debugLogContents ("https://e".data) ("now".data)
        [debugRecord 1 ("abcdefghijkl".data) ("query_key".data)
          (some 200, "ok".data)]) = some 'D' :=
  ⟨rfl, rfl⟩

/-- C4 amended: the debug log file is a four-line text header (title,
endpoint, timestamp, blank line) followed by the per-key debug records
serialized as a JSON array and a trailing newline; the JSON-array portion
begins with `[`, but the whole file contents do not begin like a JSON
array. -/
theorem debug_log_layout (endpoint timestamp : List Char) (ds : List DebugRec) :
    debugLogContents endpoint timestamp ds
        = debugHeader endpoint timestamp ++ jsonDumpDebug ds ++ "\n".data ∧
    startsAsJsonArray (jsonDumpDebug ds) = true ∧
    startsAsJsonArray (debugLogContents endpoint timestamp ds) = false := by
  refine ⟨by simp [debugLogContents, debugHeader], ?_, ?_⟩
  · cases ds with
    | nil => rfl
    | cons d rest => rfl
  · rfl

/-- C5: the active-keys file consists of exactly the keys of the `ok = true`
records, each line being the key followed by a comma: the contents are the
concatenation of `key ++ ",\n"` over the active records of the sorted
report, that active sublist is a permutation of the `ok = true` subset of
the results, its indices strictly increase, and it holds no `ok = false`
record. -/
theorem aktif_file_spec (rs : List ResultRec)
    (hix : rs.Pairwise fun a b => a.index ≠ b.index) :
    aktifContents rs
        = (((sortResults rs).filter fun r => r.ok).map
            fun r => r.key ++ ",\n".data).flatten ∧
    ((sortResults rs).filter fun r => r.ok).Perm (rs.filter fun r => r.ok) ∧
    (((sortResults rs).filter fun r => r.ok).Pairwise
      fun a b => a.index < b.index) ∧
    (∀ r ∈ (sortResults rs).filter fun r => r.ok, r.ok = true) := by
  refine ⟨?_, ?_, ?_, ?_⟩
  · simpa [aktifContents] using aktif_foldl (sortResults rs) []
  · exact (sortResults_perm rs).filter _
  · refine ((sortResults_sorted_strict rs hix).filter (fun r => r.ok)).imp_of_mem
      fun ha hb hr => ?_
    refine hr.2 ?_
    have h1 := (List.mem_filter.mp ha).2
    have h2 := (List.mem_filter.mp hb).2
    simp_all
  · intro r hr
    exact (List.mem_filter.mp hr).2

/-- Witness for C5 on a concrete two-record list. -/
theorem aktif_file_spec_witness :
    ([sampleActive, sampleInactive].Pairwise fun a b => a.index ≠ b.index) ∧
    (aktifContents [sampleActive, sampleInactive]
        = (((sortResults [sampleActive, sampleInactive]).filter fun r => r.ok).map
            fun r => r.key ++ ",\n".data).flatten ∧
      ((sortResults [sampleActive, sampleInactive]).filter fun r => r.ok).Perm
        ([sampleActive, sampleInactive].filter fun r => r.ok) ∧
      (((sortResults [sampleActive, sampleInactive]).filter fun r => r.ok).Pairwise
        fun a b => a.index < b.index) ∧
      (∀ r ∈ (sortResults [sampleActive, sampleInactive]).filter fun r => r.ok,
        r.ok = true)) :=
  ⟨by decide, aktif_file_spec [sampleActive, sampleInactive] (by decide)⟩

/-- C7 counterexample: `read_keys` does not return the kept lines themselves;
it returns their stripped forms.  On the file `" a \n"` the single kept line
is `" a "` but `read_keys` yields `"a"`. -/
theorem read_keys_not_lines :
    read_keys (" a \n".data) = ["a".data] ∧
    read_keys_claim (" a \n".data) = [" a ".data] ∧
    read_keys (" a \n".data) ≠ read_keys_claim (" a \n".data) :=
  ⟨by decide, by decide, by decide⟩

/-- C7 amended: `read_keys` returns the whitespace-stripped forms of the
lines of the input file, in file order, excluding every line that is blank
after stripping and every line whose stripped form starts with `#`. -/
theorem read_keys_strips (content : List Char) :
    read_keys content
      = ((splitlines content).filter fun line =>
          !((pyStrip line).isEmpty || (pyStrip line).head? == some '#')).map
          pyStrip := by
  simpa [read_keys] using filterKeys_eq (splitlines content)

/-- C9: `mask_key` is total — on every key, the empty string included, its
output has the definite length given by the two slices plus the ellipsis —
and on keys of length at most 4 the output contains every character of the
key, so masking hides no character of such short keys. -/
theorem mask_key_total_short (k : List Char) :
    (mask_key k).length
        = min k.length (if k.length ≤ 10 then 2 else 4) + 3
          + min k.length (if k.length ≤ 10 then 2 else 4) ∧
    mask_key [] = "...".data ∧
    (k.length ≤ 4 → ∀ c ∈ k, c ∈ mask_key k) := by
  refine ⟨?_, by decide, ?_⟩
  · simp only [mask_key]
    split <;> simp [List.length_take, List.length_drop] <;> omega
  · intro hlen c hc
    have h10 : k.length ≤ 10 := by omega
    have hmask : mask_key k = k.take 2 ++ "...".data ++ k.drop (k.length - 2) := by
      simp [mask_key, h10]
    rw [hmask]
    have hsplit : c ∈ k.take 2 ∨ c ∈ k.drop 2 := by
      rw [← List.take_append_drop 2 k] at hc
      exact List.mem_append.mp hc
    rcases hsplit with h | h
    · exact List.mem_append.mpr (Or.inl (List.mem_append.mpr (Or.inl h)))
    · refine List.mem_append.mpr (Or.inr ?_)
      have hdd : (k.drop (k.length - 2)).drop (2 - (k.length - 2)) = k.drop 2 := by
        rw [List.drop_drop]
        congr 1
        omega
      rw [← hdd] at h
      exact List.mem_of_mem_drop h

/-- Witness for C9 on the four-character key `abcd`. -/
theorem mask_key_total_short_witness :
    ("abcd".data.length ≤ 4) ∧ (∀ c ∈ "abcd".data, c ∈ mask_key ("abcd".data)) :=
  ⟨by decide, (mask_key_total_short ("abcd".data)).2.2 (by decide)⟩

end Validasi
